import Mathlib

/-!
Verification of the go-iex core against its natural-language specification.

The Go sources are shallowly embedded:
* byte buffers are `List Nat` (each element one byte value),
* machine integers are `Nat` / `Int` with explicit two's-complement
  reinterpretation where the Go code converts `uint64` to `int64`,
* Go maps with value type `int` are total functions with default `0`
  (a missing key reads as `0`, and deleting a key that reads as `0`
  is the identity under this view, exactly as in Go),
* fallible Go functions return `Except String`.

Every definition mirrors one Go function or method; the Go source file
and symbol is named in the doc comment.
-/

namespace GoIex

/-! ## Byte-buffer primitives -/

/-- Little-endian interpretation of a byte list as an unsigned integer
(first byte is least significant), as done by `binary.LittleEndian`. -/
def leNat (bs : List Nat) : Nat :=
  bs.foldr (fun b acc => b + 256 * acc) 0

/-- Reinterpretation of a `uint64` value as a signed `int64`,
as performed by the Go conversion `int64(binary.LittleEndian.Uint64 buf)`. -/
def toInt64 (n : Nat) : Int :=
  if n < 2 ^ 63 then (n : Int) else (n : Int) - 2 ^ 64

/-- The sub-buffer `buf[off : off+n]` of a Go byte slice. -/
def sliceN (buf : List Nat) (off n : Nat) : List Nat :=
  (buf.drop off).take n

/-- The byte `buf[i]` of a Go byte slice (callers of this model always
guard the index by a length check first, as the Go code does). -/
def byteAt (buf : List Nat) (i : Nat) : Nat :=
  buf.getD i 0

/-- Byte content of a Go string with trailing ASCII spaces removed,
as produced by `strings.TrimRight(string(buf), " ")`. -/
def trimRightSpace (bs : List Nat) : List Nat :=
  ((bs.reverse).dropWhile (fun b => b = 0x20)).reverse

namespace tops

/-! ## TOPS v1.6 codec, from `iextp/tops/tops.go`
(embedded in `src/socketio/subscribers_test.go` after the document
separator). -/

/-- Go `tops.parseTimestamp`: 8 bytes, little-endian signed count of
nanoseconds since the Unix epoch.  The value is a UTC instant; the Go
code materialises it as `time.Unix(0, ns).In(time.UTC)`. -/
def parseTimestamp (buf : List Nat) : Int :=
  toInt64 (leNat buf)

/-- Go `tops.parseFloat` reads 8 bytes little-endian signed and divides by
10000 into a `float64`; we keep the raw scaled integer (the fixed-point
numerator), from which the float is derived. -/
def parsePrice (buf : List Nat) : Int :=
  toInt64 (leNat buf)

def MessageTypeSystemEvent : Nat := 0x53
def MessageTypeSecurityDirectory : Nat := 0x44
def MessageTypeTradingStatus : Nat := 0x48

/-- Go `tops.EndOfSystemHours = 0x45`. -/
def EndOfSystemHours : Nat := 0x45

/-- A decoded TOPS message (the variants present in the source:
`SystemEventMessage`, `SecurityDirectoryMessage`, `TradingStatusMessage`,
and `iextp.UnsupportedMessage` for unknown type bytes). Symbols and
reasons are kept as trimmed byte lists; prices as raw fixed-point
integers; timestamps as nanoseconds since the epoch. -/
inductive TOPSMessage where
  | systemEvent (systemEvent : Nat) (timestamp : Int)
  | securityDirectory (flags : Nat) (timestamp : Int) (symbol : List Nat)
      (roundLotSize : Nat) (adjustedPOCPrice : Int) (luldTier : Nat)
  | tradingStatus (tradingStatus : Nat) (timestamp : Int) (symbol : List Nat)
      (reason : List Nat)
  | unsupported (raw : List Nat)
deriving Repr, DecidableEq, Inhabited

/-- Go `SystemEventMessage.Unmarshal`. -/
def SystemEventMessage.Unmarshal (buf : List Nat) : Except String TOPSMessage :=
  if buf.length < 10 then
    .error "cannot unmarshal SystemEventMessage from short buffer"
  else
    .ok (.systemEvent (byteAt buf 1) (parseTimestamp (sliceN buf 2 8)))

/-- Go `SecurityDirectoryMessage.Unmarshal`. -/
def SecurityDirectoryMessage.Unmarshal (buf : List Nat) : Except String TOPSMessage :=
  if buf.length < 31 then
    .error "cannot unmarshal SecurityDirectoryMessage from short buffer"
  else
    .ok (.securityDirectory (byteAt buf 1) (parseTimestamp (sliceN buf 2 8))
      (trimRightSpace (sliceN buf 10 8)) (leNat (sliceN buf 18 4))
      (parsePrice (sliceN buf 22 8)) (byteAt buf 30))

/-- Go `TradingStatusMessage.Unmarshal`. -/
def TradingStatusMessage.Unmarshal (buf : List Nat) : Except String TOPSMessage :=
  if buf.length < 22 then
    .error "cannot unmarshal TradingStatusMessage from short buffer"
  else
    .ok (.tradingStatus (byteAt buf 1) (parseTimestamp (sliceN buf 2 8))
      (trimRightSpace (sliceN buf 10 8)) (trimRightSpace (sliceN buf 18 4)))

/-- Go `tops.Protocol.Unmarshal`: dispatch on the first byte; empty buffer
is an error; an unknown message type byte yields `UnsupportedMessage`
carrying the whole buffer, with no error. -/
def Protocol.Unmarshal (buf : List Nat) : Except String TOPSMessage :=
  match buf with
  | [] => .error "cannot unmarshal 0-length buffer"
  | b :: _ =>
    if b = MessageTypeSystemEvent then SystemEventMessage.Unmarshal buf
    else if b = MessageTypeSecurityDirectory then SecurityDirectoryMessage.Unmarshal buf
    else if b = MessageTypeTradingStatus then TradingStatusMessage.Unmarshal buf
    else .ok (.unsupported buf)

/-- Fixed decoded length of each known TOPS message-type byte
(the per-variant length checks in the decoders above). -/
def specLength (t : Nat) : Nat :=
  if t = MessageTypeSystemEvent then 10
  else if t = MessageTypeSecurityDirectory then 31
  else if t = MessageTypeTradingStatus then 22
  else 0

end tops

/-! ## Civil-calendar conversion (for stating decoded UTC instants)

The Go code renders timestamps through `time.Unix(0, ns).In(time.UTC)`.
To state that a decoded nanosecond count denotes a given UTC date we use
the standard proleptic-Gregorian day-numbering algorithm, valid for all
dates from 1970-01-01 on. -/

/-- Number of days from 1970-01-01 to the civil date y-m-d (valid for
y at least 1970, 1 through 12 for m). -/
def daysFromEpoch (y m d : Nat) : Nat :=
  let yAdj := if m ≤ 2 then y - 1 else y
  let era := yAdj / 400
  let yoe := yAdj % 400
  let mp := (m + 9) % 12
  let doy := (153 * mp + 2) / 5 + (d - 1)
  let doe := yoe * 365 + yoe / 4 - yoe / 100 + doy
  era * 146097 + doe - 719468

/-- Nanoseconds since the Unix epoch of the UTC instant
y-m-d hh:mm:ss (+ ns), for dates from 1970 on. -/
def utcToEpochNs (y m d hh mm ss ns : Nat) : Int :=
  ((daysFromEpoch y m d * 86400 + hh * 3600 + mm * 60 + ss) * 1000000000 + ns : Nat)

/-! ## Buffer-extension lemmas shared by the codec theorems -/

theorem sliceN_append (m g : List Nat) (off n : Nat) (h : off + n ≤ m.length) :
    sliceN (m ++ g) off n = sliceN m off n := by
  unfold sliceN
  rw [List.drop_append_of_le_length (by omega)]
  exact List.take_append_of_le_length (by rw [List.length_drop]; omega)

theorem byteAt_append (m g : List Nat) (i : Nat) (h : i < m.length) :
    byteAt (m ++ g) i = byteAt m i := by
  simp [byteAt, List.getD_eq_getElem?_getD, List.getElem?_append, h]

theorem systemEvent_unmarshal_append (m g : List Nat) (h : 10 ≤ m.length) :
    tops.SystemEventMessage.Unmarshal (m ++ g) = tops.SystemEventMessage.Unmarshal m := by
  unfold tops.SystemEventMessage.Unmarshal
  rw [if_neg (by simp; omega), if_neg (by omega),
    byteAt_append _ _ _ (by omega), sliceN_append _ _ _ _ (by omega)]

theorem securityDirectory_unmarshal_append (m g : List Nat) (h : 31 ≤ m.length) :
    tops.SecurityDirectoryMessage.Unmarshal (m ++ g) = tops.SecurityDirectoryMessage.Unmarshal m := by
  unfold tops.SecurityDirectoryMessage.Unmarshal
  rw [if_neg (by simp; omega), if_neg (by omega),
    byteAt_append _ _ _ (by omega), byteAt_append _ _ _ (by omega),
    sliceN_append _ _ _ _ (by omega), sliceN_append _ _ _ _ (by omega),
    sliceN_append _ _ _ _ (by omega), sliceN_append _ _ _ _ (by omega)]

theorem tradingStatus_unmarshal_append (m g : List Nat) (h : 22 ≤ m.length) :
    tops.TradingStatusMessage.Unmarshal (m ++ g) = tops.TradingStatusMessage.Unmarshal m := by
  unfold tops.TradingStatusMessage.Unmarshal
  rw [if_neg (by simp; omega), if_neg (by omega),
    byteAt_append _ _ _ (by omega),
    sliceN_append _ _ _ _ (by omega), sliceN_append _ _ _ _ (by omega),
    sliceN_append _ _ _ _ (by omega)]

/-- The set of message-type bytes the TOPS protocol in the source
dispatches on. -/
def tops.knownMessageType (t : Nat) : Prop :=
  t = tops.MessageTypeSystemEvent ∨ t = tops.MessageTypeSecurityDirectory ∨
    t = tops.MessageTypeTradingStatus

/-- C1: decoding the 10-byte TOPS buffer 53 45 00 A0 99 97 E9 3D B6 14 with
the TOPS protocol yields a SystemEvent message whose event byte is 0x45,
the character E (EndOfSystemHours), and whose timestamp is the
little-endian signed 64-bit nanosecond count denoting 2017-04-17T17:00:00Z. -/
theorem tops_systemEvent_decode_c1 :
    tops.Protocol.Unmarshal [0x53, 0x45, 0x00, 0xA0, 0x99, 0x97, 0xE9, 0x3D, 0xB6, 0x14] =
      Except.ok (tops.TOPSMessage.systemEvent tops.EndOfSystemHours
        (utcToEpochNs 2017 4 17 17 0 0 0)) ∧
    tops.EndOfSystemHours = Char.toNat 'E' :=
  ⟨rfl, rfl⟩

/-- C2: the TOPS protocol Unmarshal fails on an empty buffer, and returns
an UnsupportedMessage carrying the raw buffer with no error whenever the
first byte is not a known message-type byte. -/
theorem tops_unmarshal_empty_and_unknown_c2 (buf : List Nat) (b : Nat) (rest : List Nat)
    (hbuf : buf = b :: rest)
    (h53 : b ≠ tops.MessageTypeSystemEvent)
    (h44 : b ≠ tops.MessageTypeSecurityDirectory)
    (h48 : b ≠ tops.MessageTypeTradingStatus) :
    (∃ e, tops.Protocol.Unmarshal [] = Except.error e) ∧
    tops.Protocol.Unmarshal buf = Except.ok (tops.TOPSMessage.unsupported buf) := by
  subst hbuf
  exact ⟨⟨_, rfl⟩, by simp [tops.Protocol.Unmarshal, h53, h44, h48]⟩

theorem tops_unmarshal_empty_and_unknown_c2_witness :
    (∃ e, tops.Protocol.Unmarshal [] = Except.error e) ∧
    tops.Protocol.Unmarshal [0x99, 0x01] =
      Except.ok (tops.TOPSMessage.unsupported [0x99, 0x01]) :=
  tops_unmarshal_empty_and_unknown_c2 [0x99, 0x01] 0x99 [0x01] rfl
    (by decide) (by decide) (by decide)

/-- C3: for every message buffer m whose first byte is a known TOPS type
and whose length is at least the variant fixed length, appending any
trailing garbage g does not change the decoded message; and a buffer of a
known type shorter than the variant fixed length fails with an error. -/
theorem protocol_dispatch_systemEvent (rest : List Nat) :
    tops.Protocol.Unmarshal (tops.MessageTypeSystemEvent :: rest) =
      tops.SystemEventMessage.Unmarshal (tops.MessageTypeSystemEvent :: rest) := rfl

theorem protocol_dispatch_securityDirectory (rest : List Nat) :
    tops.Protocol.Unmarshal (tops.MessageTypeSecurityDirectory :: rest) =
      tops.SecurityDirectoryMessage.Unmarshal (tops.MessageTypeSecurityDirectory :: rest) := rfl

theorem protocol_dispatch_tradingStatus (rest : List Nat) :
    tops.Protocol.Unmarshal (tops.MessageTypeTradingStatus :: rest) =
      tops.TradingStatusMessage.Unmarshal (tops.MessageTypeTradingStatus :: rest) := rfl

theorem tops_decode_ignores_trailing_c3 (m g : List Nat) (b : Nat) (rest : List Nat)
    (hm : m = b :: rest) (hk : tops.knownMessageType b) :
    (tops.specLength b ≤ m.length →
      tops.Protocol.Unmarshal (m ++ g) = tops.Protocol.Unmarshal m) ∧
    (m.length < tops.specLength b → ∃ e, tops.Protocol.Unmarshal m = Except.error e) := by
  subst hm
  rcases hk with h | h | h <;> subst h <;> constructor
  · intro hlen
    rw [show tops.specLength tops.MessageTypeSystemEvent = 10 from rfl] at hlen
    rw [List.cons_append, protocol_dispatch_systemEvent, protocol_dispatch_systemEvent,
      ← List.cons_append]
    exact systemEvent_unmarshal_append _ g hlen
  · intro hlen
    rw [show tops.specLength tops.MessageTypeSystemEvent = 10 from rfl] at hlen
    rw [protocol_dispatch_systemEvent]
    unfold tops.SystemEventMessage.Unmarshal
    rw [if_pos hlen]
    exact ⟨_, rfl⟩
  · intro hlen
    rw [show tops.specLength tops.MessageTypeSecurityDirectory = 31 from rfl] at hlen
    rw [List.cons_append, protocol_dispatch_securityDirectory,
      protocol_dispatch_securityDirectory, ← List.cons_append]
    exact securityDirectory_unmarshal_append _ g hlen
  · intro hlen
    rw [show tops.specLength tops.MessageTypeSecurityDirectory = 31 from rfl] at hlen
    rw [protocol_dispatch_securityDirectory]
    unfold tops.SecurityDirectoryMessage.Unmarshal
    rw [if_pos hlen]
    exact ⟨_, rfl⟩
  · intro hlen
    rw [show tops.specLength tops.MessageTypeTradingStatus = 22 from rfl] at hlen
    rw [List.cons_append, protocol_dispatch_tradingStatus,
      protocol_dispatch_tradingStatus, ← List.cons_append]
    exact tradingStatus_unmarshal_append _ g hlen
  · intro hlen
    rw [show tops.specLength tops.MessageTypeTradingStatus = 22 from rfl] at hlen
    rw [protocol_dispatch_tradingStatus]
    unfold tops.TradingStatusMessage.Unmarshal
    rw [if_pos hlen]
    exact ⟨_, rfl⟩

theorem tops_decode_ignores_trailing_c3_witness :
    tops.Protocol.Unmarshal
        ([0x53, 0x45, 0x00, 0xA0, 0x99, 0x97, 0xE9, 0x3D, 0xB6, 0x14] ++ [0xFF, 0x00]) =
      tops.Protocol.Unmarshal [0x53, 0x45, 0x00, 0xA0, 0x99, 0x97, 0xE9, 0x3D, 0xB6, 0x14] :=
  (tops_decode_ignores_trailing_c3 _ [0xFF, 0x00] 0x53
    [0x45, 0x00, 0xA0, 0x99, 0x97, 0xE9, 0x3D, 0xB6, 0x14] rfl (Or.inl rfl)).1 (by decide)

namespace iextp

/-! ## IEX-TP segment scanner, from `src/unnamed/part_013` (`package iextp`) -/

/-- Error outcome of a protocol-level `Unmarshal`.  The scanner in the
source distinguishes `io.EOF` from every other error. -/
inductive PErr where
  | eof
  | other (msg : String)
deriving Repr, DecidableEq

/-- Errors `Scanner.Scan` stores in `s.err` before returning false
without producing a segment. -/
inductive ScanErr where
  | headerShort
  | protocolMismatch
  | blockLengthShort
  | blockShort
  | protocolFailure (msg : String)
  | unexpectedEOF
deriving Repr, DecidableEq

/-- The `SegmentHeader` struct of `package iextp` (field for field). -/
structure SegmentHeader where
  version : Nat
  messageProtocolID : Nat
  channelID : Nat
  sessionID : Nat
  payloadLength : Nat
  messageCount : Nat
  streamOffset : Int
  firstMessageSequenceNumber : Int
  sendTime : Int
deriving Repr, DecidableEq

/-- Reading exactly n bytes from the front of a stream (`binary.Read` /
`io.ReadFull`); fails when fewer are available. -/
def readN (n : Nat) (s : List Nat) : Option (List Nat × List Nat) :=
  if n ≤ s.length then some (s.take n, s.drop n) else none

/-- Go `SegmentHeader.Unmarshal` of `src/unnamed/part_013`: reads the
fields in source order with `binary.Read` little-endian.  This generation
of the parser consumes 39 bytes (Version u8, MessageProtocolID u16,
ChannelID u32, SessionID u32, PayloadLength u16, MessageCount u16,
StreamOffset i64, FirstMessageSequenceNumber i64, SendTime i64); it does
not read a reserved byte. -/
def SegmentHeader.Unmarshal (s : List Nat) : Option (SegmentHeader × List Nat) := do
  let (v, s) ← readN 1 s
  let (pid, s) ← readN 2 s
  let (ch, s) ← readN 4 s
  let (sess, s) ← readN 4 s
  let (plen, s) ← readN 2 s
  let (mcount, s) ← readN 2 s
  let (soff, s) ← readN 8 s
  let (fseq, s) ← readN 8 s
  let (stime, s) ← readN 8 s
  some (⟨leNat v, leNat pid, leNat ch, leNat sess, leNat plen, leNat mcount,
    toInt64 (leNat soff), toInt64 (leNat fseq), toInt64 (leNat stime)⟩, s)

/-- An `iextp.Protocol`: its `ID()` and its `Unmarshal`.  Go `Unmarshal`
allocates the message value and then mutates it, so on error the (partial)
value still exists; the embedding therefore returns a value together with
an optional error. -/
structure Prot (α : Type) where
  protId : Nat
  unmarshal : List Nat → α × Option PErr

/-- The message-block loop inside `Scanner.Scan`: reads the given number of
length-prefixed blocks (little-endian u16 length, then that many body
bytes), decodes each with the protocol, and returns the accumulated
messages, the remaining stream and the boolean the loop leaves in `more`.
A protocol error other than io.EOF aborts; io.EOF before the final block
aborts with io.ErrUnexpectedEOF; io.EOF on the final block keeps the
message and clears `more`. -/
def readBlocks {α : Type} (um : List Nat → α × Option PErr) :
    Nat → List Nat → Except ScanErr (List α × List Nat × Bool)
  | 0, s => .ok ([], s, true)
  | n + 1, s =>
    match readN 2 s with
    | none => .error .blockLengthShort
    | some (lenBytes, s1) =>
      match readN (leNat lenBytes) s1 with
      | none => .error .blockShort
      | some (buf, s2) =>
        match um buf with
        | (msg, some PErr.eof) =>
          if n ≠ 0 then .error .unexpectedEOF
          else .ok ([msg], s2, false)
        | (_, some (PErr.other e)) => .error (.protocolFailure e)
        | (msg, none) =>
          match readBlocks um n s2 with
          | .error e => .error e
          | .ok (msgs, s3, more) => .ok (msg :: msgs, s3, more)

/-- Result of a `Scanner.Scan` call that set `s.current` (no error stored
in `s.err`): the parsed segment, the unconsumed stream, and the boolean
value Scan returns. -/
structure ScanOk (α : Type) where
  header : SegmentHeader
  messages : List α
  rest : List Nat
  more : Bool
deriving Repr

/-- Go `Scanner.Scan` of `src/unnamed/part_013`: unmarshal the segment
header, check the protocol ID, then read `MessageCount` message blocks.
An `Except.error` is a run in which Scan sets `s.err` and produces no
segment; an `Except.ok` is a run that sets `s.current`. -/
def Scanner.Scan {α : Type} (p : Prot α) (s : List Nat) : Except ScanErr (ScanOk α) :=
  match SegmentHeader.Unmarshal s with
  | none => .error .headerShort
  | some (h, s1) =>
    if h.messageProtocolID ≠ p.protId then .error .protocolMismatch
    else
      match readBlocks p.unmarshal h.messageCount s1 with
      | .error e => .error e
      | .ok (msgs, s2, more) => .ok ⟨h, msgs, s2, more⟩

theorem readBlocks_length {α : Type} (um : List Nat → α × Option PErr) :
    ∀ (n : Nat) (s : List Nat) (msgs : List α) (rest : List Nat) (more : Bool),
      readBlocks um n s = .ok (msgs, rest, more) → msgs.length = n := by
  intro n
  induction n with
  | zero =>
    intro s msgs rest more h
    simp only [readBlocks] at h
    cases h
    rfl
  | succ k ih =>
    intro s msgs rest more h
    rw [readBlocks] at h
    split at h
    · cases h
    · split at h
      · cases h
      · split at h
        · split at h
          · cases h
          · rename_i hcond
            cases h
            simp only [not_not] at hcond
            subst hcond
            rfl
        · cases h
        · split at h
          · cases h
          · rename_i msg _ msgs0 s3 more0 heq
            cases h
            simp [ih _ _ _ _ heq]

/-- The TOPS protocol adapted to the scanner interface: ID 0x8003 from the
source constant `tops.MessageProtocolID`; the decoder never reports
io.EOF, and on error the allocated message value is still the (zero)
value the Go code would append. -/
def topsProt : Prot tops.TOPSMessage where
  protId := 0x8003
  unmarshal buf :=
    match tops.Protocol.Unmarshal buf with
    | .ok m => (m, none)
    | .error e => (default, some (.other e))

end iextp

/-- C4: every segment that `Scanner.Scan` decodes without reporting an
error carries exactly `MessageCount` messages: one message is accumulated
per length-prefixed block, and `MessageCount` blocks are read. -/
theorem scanner_messages_eq_messageCount_c4 {α : Type} (p : iextp.Prot α)
    (s : List Nat) (res : iextp.ScanOk α)
    (h : iextp.Scanner.Scan p s = .ok res) :
    res.messages.length = res.header.messageCount := by
  unfold iextp.Scanner.Scan at h
  split at h
  · cases h
  · split at h
    · cases h
    · split at h
      · cases h
      · rename_i x1 hd s1 heq1 hid x2 msgs s2 more heq
        cases h
        exact iextp.readBlocks_length p.unmarshal hd.messageCount s1 msgs s2 more heq

/-- A concrete byte stream holding one well-formed TOPS segment whose
header announces a single message block (the SystemEvent message of C1). -/
def c4Stream : List Nat :=
  [0x01,
   0x03, 0x80,
   0x01, 0x00, 0x00, 0x00,
   0x00, 0x00, 0x00, 0x00,
   0x0C, 0x00,
   0x01, 0x00,
   0x00, 0x00, 0x00, 0x00, 0x00, 0x00, 0x00, 0x00,
   0x00, 0x00, 0x00, 0x00, 0x00, 0x00, 0x00, 0x00,
   0x00, 0x00, 0x00, 0x00, 0x00, 0x00, 0x00, 0x00,
   0x0A, 0x00,
   0x53, 0x45, 0x00, 0xA0, 0x99, 0x97, 0xE9, 0x3D, 0xB6, 0x14]

theorem scanner_messages_eq_messageCount_c4_witness :
    iextp.Scanner.Scan iextp.topsProt c4Stream =
      Except.ok ⟨⟨1, 0x8003, 1, 0, 12, 1, 0, 0, 0⟩,
        [tops.TOPSMessage.systemEvent 0x45 1492448400000000000], [], true⟩ ∧
    ([tops.TOPSMessage.systemEvent 0x45 1492448400000000000]).length = (1 : Nat) :=
  ⟨rfl, scanner_messages_eq_messageCount_c4 iextp.topsProt c4Stream _ rfl⟩

namespace pcap

/-! ## PcapScanner, from `src/unnamed/part_000` and `src/decoder.go` -/

/-- Errors surfaced by a `gopacket.PacketSource` or a segment parse:
`eof` is io.EOF, `unexpectedEOF` is io.ErrUnexpectedEOF. -/
inductive Err where
  | eof
  | unexpectedEOF
  | other (msg : String)
deriving Repr, DecidableEq

/-- State of Go `PcapScanner`: the current segment's messages with the
read index, plus the remaining packets of the packet source and the
terminal error the source returns at end of input (`NextPacket` yields
each packet in order and then the terminal error).  A packet is `none`
when it has no application layer, `some payload` otherwise. -/
structure PcapScanner (α : Type) where
  currentSegment : List α
  currentMsgIndex : Nat
  packets : List (Option (List Nat))
  terminal : Err

/-- Go `PcapScanner.nextSegment`, parameterized by the segment parser
(`iextp.Segment.Unmarshal` in the source, a collaborator of the scanner):
read packets until one with an application layer parses to a segment with
more than zero messages; propagate any packet-source or parse error
unchanged.  The returned message list is never empty. -/
def nextSegment {α : Type} (parse : List Nat → Except Err (List α)) :
    List (Option (List Nat)) → Err →
      Except Err ({ l : List α // l ≠ [] } × List (Option (List Nat)))
  | [], term => .error term
  | none :: rest, term => nextSegment parse rest term
  | some payload :: rest, term =>
    match parse payload with
    | .error e => .error e
    | .ok [] => nextSegment parse rest term
    | .ok (m :: ms) => .ok (⟨m :: ms, by simp⟩, rest)

/-- Go `PcapScanner.NextMessage`: return the next message of the current
segment, first pulling the next non-empty segment when the current one is
exhausted. -/
def NextMessage {α : Type} (parse : List Nat → Except Err (List α))
    (st : PcapScanner α) : Except Err (α × PcapScanner α) :=
  if h : st.currentMsgIndex < st.currentSegment.length then
    .ok (st.currentSegment.get ⟨st.currentMsgIndex, h⟩,
      { st with currentMsgIndex := st.currentMsgIndex + 1 })
  else
    match nextSegment parse st.packets st.terminal with
    | .error e => .error e
    | .ok (⟨msgs, hne⟩, rest) =>
      .ok (msgs.head hne,
        { currentSegment := msgs, currentMsgIndex := 1, packets := rest,
          terminal := st.terminal })

/-- The end-of-stream acceptance check of `testPcapScanner`
(src/pcap_test.go): the test tolerates either io.EOF or
io.ErrUnexpectedEOF when the input is exhausted. -/
def testAccepts (e : Err) : Bool :=
  decide (e = Err.eof ∨ e = Err.unexpectedEOF)

end pcap

/-- C8 counterexample: at the outermost end of file, `NextMessage` does
not convert io.ErrUnexpectedEOF into a clean end of stream; it surfaces
io.ErrUnexpectedEOF itself to the caller. -/
theorem pcap_nextMessage_tolerates_unexpectedEOF_c8_counterexample :
    pcap.NextMessage (fun _ => Except.ok ([] : List Nat))
        ⟨[], 0, [], pcap.Err.unexpectedEOF⟩ = Except.error pcap.Err.unexpectedEOF ∧
    pcap.Err.unexpectedEOF ≠ pcap.Err.eof :=
  ⟨rfl, by decide⟩

/-- C8 (amended): `PcapScanner.NextMessage` propagates the packet
source's terminal error unchanged — a clean EOF as io.EOF and the
sample-file anomaly as io.ErrUnexpectedEOF; the tolerance for
io.ErrUnexpectedEOF at end of file lives in the caller (the test
harness), whose acceptance predicate admits both errors. -/
theorem pcap_nextMessage_propagates_terminal_c8 {α : Type}
    (parse : List Nat → Except pcap.Err (List α)) (st : pcap.PcapScanner α)
    (hseg : st.currentSegment.length ≤ st.currentMsgIndex)
    (hpk : st.packets = []) :
    pcap.NextMessage parse st = Except.error st.terminal ∧
    (st.terminal = pcap.Err.eof ∨ st.terminal = pcap.Err.unexpectedEOF →
      pcap.testAccepts st.terminal = true) := by
  constructor
  · unfold pcap.NextMessage
    rw [dif_neg (by omega), hpk]
    rfl
  · intro hterm
    simp [pcap.testAccepts, hterm]

theorem pcap_nextMessage_propagates_terminal_c8_witness :
    pcap.NextMessage (fun _ => Except.ok ([] : List Nat))
        ⟨[], 0, [], pcap.Err.eof⟩ = Except.error pcap.Err.eof ∧
    (pcap.Err.eof = pcap.Err.eof ∨ pcap.Err.eof = pcap.Err.unexpectedEOF →
      pcap.testAccepts pcap.Err.eof = true) :=
  pcap_nextMessage_propagates_terminal_c8 (fun _ => Except.ok ([] : List Nat))
    ⟨[], 0, [], pcap.Err.eof⟩ (by decide) rfl

namespace socketio

/-! ## CountingSubscriber, from `src/socketio/subscribers.go` -/

/-- The `CountingSubscriber` symbol table: a Go `map[string]int` viewed as
a total function with default 0 (a missing key reads as 0, and `delete`
of a key that already reads as 0 is the identity under this view, which
is how every method of the type observes the map). -/
def CountingSubscriber := String → Nat

def CountingSubscriber.empty : CountingSubscriber := fun _ => 0

/-- Go `CountingSubscriber.Subscribe`: increment the symbol's counter. -/
def CountingSubscriber.Subscribe (c : CountingSubscriber) (symbol : String) :
    CountingSubscriber :=
  fun t => if t = symbol then c symbol + 1 else c t

/-- Go `CountingSubscriber.Subscribed`: true iff the counter is strictly
positive. -/
def CountingSubscriber.Subscribed (c : CountingSubscriber) (symbol : String) : Bool :=
  decide (0 < c symbol)

/-- Go `CountingSubscriber.Unsubscribe`: decrement while positive,
otherwise delete the key (which reads as 0 either way). -/
def CountingSubscriber.Unsubscribe (c : CountingSubscriber) (symbol : String) :
    CountingSubscriber :=
  if 0 < c symbol then fun t => if t = symbol then c symbol - 1 else c t
  else fun t => if t = symbol then 0 else c t

/-- One call against the shared counter. -/
inductive SubOp where
  | sub (symbol : String)
  | unsub (symbol : String)
deriving Repr, DecidableEq

/-- Replay a finite sequence of Subscribe/Unsubscribe calls. -/
def applyOps (c : CountingSubscriber) : List SubOp → CountingSubscriber
  | [] => c
  | .sub s :: rest => applyOps (c.Subscribe s) rest
  | .unsub s :: rest => applyOps (c.Unsubscribe s) rest

/-- Number of Subscribe(symbol) calls in a sequence. -/
def numSub (symbol : String) (ops : List SubOp) : Nat :=
  ops.count (SubOp.sub symbol)

/-- Number of Unsubscribe(symbol) calls in a sequence. -/
def numUnsub (symbol : String) (ops : List SubOp) : Nat :=
  ops.count (SubOp.unsub symbol)

theorem applyOps_append (c : CountingSubscriber) (l1 l2 : List SubOp) :
    applyOps c (l1 ++ l2) = applyOps (applyOps c l1) l2 := by
  induction l1 generalizing c with
  | nil => rfl
  | cons op rest ih => cases op <;> simp [applyOps, ih]

/-- Under the no-underflow side condition, the counter equals the
difference of Subscribe and Unsubscribe call counts. -/
theorem applyOps_count (s : String) (ops : List SubOp)
    (hpre : ∀ p q : List SubOp, ops = p ++ q → numUnsub s p ≤ numSub s p) :
    applyOps CountingSubscriber.empty ops s = numSub s ops - numUnsub s ops ∧
    numUnsub s ops ≤ numSub s ops := by
  induction ops using List.reverseRecOn with
  | nil => exact ⟨rfl, le_refl 0⟩
  | append_singleton l op ih =>
    obtain ⟨hval, hle⟩ :=
      ih (fun p q hpq => hpre p (q ++ [op]) (by rw [hpq, List.append_assoc]))
    rw [applyOps_append]
    cases op with
    | sub x =>
      by_cases hx : x = s
      · subst hx
        have hcnt1 : numSub x (l ++ [SubOp.sub x]) = numSub x l + 1 := by
          simp [numSub, List.count_append]
        have hcnt2 : numUnsub x (l ++ [SubOp.sub x]) = numUnsub x l := by
          simp [numUnsub, List.count_append]
        refine ⟨?_, by omega⟩
        rw [hcnt1, hcnt2]
        simp [applyOps, CountingSubscriber.Subscribe]
        omega
      · have hcnt1 : numSub s (l ++ [SubOp.sub x]) = numSub s l := by
          simp [numSub, List.count_append, Ne.symm hx]
        have hcnt2 : numUnsub s (l ++ [SubOp.sub x]) = numUnsub s l := by
          simp [numUnsub, List.count_append]
        refine ⟨?_, by omega⟩
        rw [hcnt1, hcnt2]
        simp only [applyOps, CountingSubscriber.Subscribe]
        rw [if_neg (fun hh => hx hh.symm)]
        exact hval
    | unsub x =>
      by_cases hx : x = s
      · subst hx
        have hcnt1 : numSub x (l ++ [SubOp.unsub x]) = numSub x l := by
          simp [numSub, List.count_append]
        have hcnt2 : numUnsub x (l ++ [SubOp.unsub x]) = numUnsub x l + 1 := by
          simp [numUnsub, List.count_append]
        have hfull : numUnsub x l + 1 ≤ numSub x l := by
          have := hpre (l ++ [SubOp.unsub x]) [] (by simp)
          rw [hcnt1, hcnt2] at this
          exact this
        have hpos : 0 < applyOps CountingSubscriber.empty l x := by
          rw [hval]; omega
        refine ⟨?_, by omega⟩
        rw [hcnt1, hcnt2]
        simp only [applyOps, CountingSubscriber.Unsubscribe, if_pos hpos]
        simp only [eq_self_iff_true, if_true]
        rw [hval]
        omega
      · have hcnt1 : numSub s (l ++ [SubOp.unsub x]) = numSub s l := by
          simp [numSub, List.count_append]
        have hcnt2 : numUnsub s (l ++ [SubOp.unsub x]) = numUnsub s l := by
          simp [numUnsub, List.count_append, Ne.symm hx]
        refine ⟨?_, by omega⟩
        rw [hcnt1, hcnt2]
        simp only [applyOps, CountingSubscriber.Unsubscribe]
        by_cases hp : 0 < applyOps CountingSubscriber.empty l x
        · rw [if_pos hp, if_neg (fun hh => hx hh.symm)]
          exact hval
        · rw [if_neg hp, if_neg (fun hh => hx hh.symm)]
          exact hval

end socketio

/-- C6 counterexample: after the call sequence Unsubscribe(FB) then
Subscribe(FB), Subscribed(FB) is true although the number of Subscribe(FB)
calls (one) does not exceed the number of Unsubscribe(FB) calls (one):
an Unsubscribe on a zero count is clamped, so the stated iff fails. -/
theorem countingSubscriber_refcount_c6_counterexample :
    socketio.CountingSubscriber.Subscribed
        (socketio.applyOps socketio.CountingSubscriber.empty
          [socketio.SubOp.unsub "FB", socketio.SubOp.sub "FB"]) "FB" = true ∧
    ¬ (socketio.numUnsub "FB" [socketio.SubOp.unsub "FB", socketio.SubOp.sub "FB"] <
       socketio.numSub "FB" [socketio.SubOp.unsub "FB", socketio.SubOp.sub "FB"]) := by
  refine ⟨rfl, ?_⟩
  decide

/-- C6 (amended): Subscribe(s) followed by Unsubscribe(s) restores the
prior counter state; and for every finite call sequence in which no
prefix contains more Unsubscribe(s) than Subscribe(s) calls, Subscribed(s)
is true iff the number of Subscribe(s) calls exceeds the number of
Unsubscribe(s) calls.  (Without the prefix condition the iff fails, since
Unsubscribe on a zero count is clamped.) -/
theorem countingSubscriber_refcount_c6 (c : socketio.CountingSubscriber)
    (s : String) (ops : List socketio.SubOp)
    (hpre : ∀ p q : List socketio.SubOp, ops = p ++ q →
      socketio.numUnsub s p ≤ socketio.numSub s p) :
    (c.Subscribe s).Unsubscribe s = c ∧
    (socketio.CountingSubscriber.Subscribed
        (socketio.applyOps socketio.CountingSubscriber.empty ops) s = true ↔
      socketio.numUnsub s ops < socketio.numSub s ops) := by
  constructor
  · funext t
    unfold socketio.CountingSubscriber.Unsubscribe socketio.CountingSubscriber.Subscribe
    rw [if_pos (by rw [if_pos rfl]; omega)]
    by_cases ht : t = s
    · subst ht
      rw [if_pos rfl, if_pos rfl]
      omega
    · rw [if_neg ht, if_neg ht]
  · obtain ⟨hval, hle⟩ := socketio.applyOps_count s ops hpre
    unfold socketio.CountingSubscriber.Subscribed
    rw [hval]
    constructor
    · intro h
      have := of_decide_eq_true h
      omega
    · intro h
      exact decide_eq_true (by omega)

theorem countingSubscriber_refcount_c6_witness :
    ((socketio.CountingSubscriber.empty.Subscribe "FB").Unsubscribe "FB" =
      socketio.CountingSubscriber.empty) ∧
    (socketio.CountingSubscriber.Subscribed
        (socketio.applyOps socketio.CountingSubscriber.empty
          [socketio.SubOp.sub "FB"]) "FB" = true ↔
      socketio.numUnsub "FB" [socketio.SubOp.sub "FB"] <
        socketio.numSub "FB" [socketio.SubOp.sub "FB"]) :=
  countingSubscriber_refcount_c6 socketio.CountingSubscriber.empty "FB"
    [socketio.SubOp.sub "FB"]
    (fun p q h => by
      cases p with
      | nil => exact Nat.le_refl 0
      | cons a t =>
        cases t with
        | nil =>
          have ha : a = socketio.SubOp.sub "FB" := by
            injection h with h1 h2
            exact h1.symm
          subst ha
          decide
        | cons b t2 =>
          exact absurd (congrArg List.length h) (by simp))

namespace socketio

/-! ## Socket.IO encoder, from `src/unnamed/part_004` (`strArrayEncoder`)
and the packet/message type codes of `src/socketio/decoder.go` -/

/-- Socket.IO message type `Connect` (iota 0 in decoder.go). -/
def Connect : Int := 0

/-- Socket.IO message type `Disconnect` (iota 1 in decoder.go). -/
def Disconnect : Int := 1

/-- Socket.IO message type `Event` (iota 2 in decoder.go). -/
def Event : Int := 2

/-- Engine.IO packet type `Message` (iota 4 in decoder.go). -/
def Message : Int := 4

/-- Lower-case hexadecimal digit. -/
def hexDigit (n : Nat) : Char :=
  if n < 10 then Char.ofNat (48 + n) else Char.ofNat (87 + n)

/-- Go `encoding/json` escaping of one character inside a quoted string
(ASCII range; `json.Marshal` HTML-escapes angle brackets and ampersand
by default). -/
def jsonEscapeChar (c : Char) : String :=
  if c = Char.ofNat 34 then "\\\""
  else if c = Char.ofNat 92 then "\\\\"
  else if c = Char.ofNat 10 then "\\n"
  else if c = Char.ofNat 13 then "\\r"
  else if c = Char.ofNat 9 then "\\t"
  else if c = Char.ofNat 60 ∨ c = Char.ofNat 62 ∨ c = Char.ofNat 38 ∨ c.toNat < 32 then
    "\\u00" ++ String.mk [hexDigit (c.toNat / 16), hexDigit (c.toNat % 16)]
  else String.mk [c]

/-- Go `json.Marshal` of a string value. -/
def jsonMarshalString (s : String) : String :=
  "\"" ++ String.join (s.data.map jsonEscapeChar) ++ "\""

/-- Go `json.Marshal` of a `[]string` value. -/
def jsonMarshalStringArray (parts : List String) : String :=
  "[" ++ String.intercalate "," (parts.map jsonMarshalString) ++ "]"

/-- The `IEXMsg` struct of `src/unnamed/part_004` (the `SubOrUnsub` event
type is its underlying string). -/
structure IEXMsg where
  EventType : String
  Data : String
deriving Repr, DecidableEq

/-- Go constant `Subscribe` of type `SubOrUnsub`. -/
def Subscribe : String := "subscribe"

/-- Go constant `Unsubscribe` of type `SubOrUnsub`. -/
def Unsubscribe : String := "unsubscribe"

/-- Go `strings.ToUpper` restricted to ASCII (IEX symbols are ASCII;
character-wise upper-casing of the string). -/
def stringsToUpper (s : String) : String :=
  String.mk (s.data.map Char.toUpper)

/-- Go `strArrayEncoder.EncodePacket` for the encoder created by
`NewWSEncoder ns`: prints any non-negative packet and message type code
and appends the namespace followed by a comma when non-empty. -/
def EncodePacket (ns : String) (p m : Int) : String :=
  (if 0 ≤ p then toString p else "") ++ (if 0 ≤ m then toString m else "")
    ++ (if 0 < ns.length then ns ++ "," else "")

/-- Go `strArrayEncoder.EncodeMessage`: the `EncodePacket` prefix followed
by the JSON array [msg.EventType, msg.Data]. -/
def EncodeMessage (ns : String) (p m : Int) (msg : IEXMsg) : String :=
  EncodePacket ns p m ++ jsonMarshalStringArray [msg.EventType, msg.Data]

/-- Go `simpleSubUnsubFactory` (src/unnamed/part_004): event type plus the
comma-joined symbols, exactly as passed. -/
def simpleSubUnsubFactory (signal : String) (symbols : List String) : IEXMsg :=
  ⟨signal, String.intercalate "," symbols⟩

/-! ## Namespace manager, from `src/unnamed/part_005`
(`IEXMsgTypeNamespace`), and `Client.closeNamespace` from
`src/socketio/client.go` -/

/-- The namespace path constant `tops` of client.go. -/
def topsPath : String := "/1.0/tops"

/-- Mutable state of an `IEXMsgTypeNamespace`: the shared symbol
refcounts, the next subscription id, and the subscription table (each
entry the key set of the Go `map[string]struct` in insertion order;
the callback itself is identified by the subscription id). -/
structure NsState where
  symbols : CountingSubscriber
  nextId : Nat
  subscriptions : List (Nat × List String)

/-- Key insertion into a Go `map[string]struct` key set: adding an
existing key is a no-op. -/
def insertKey (l : List String) (s : String) : List String :=
  if s ∈ l then l else l ++ [s]

/-- The symbol set stored in a new subscription by `SubscribeTo`: each
caller symbol upper-cased and inserted. -/
def upperKeySet (symbols : List String) : List String :=
  symbols.foldl (fun a s => insertKey a (stringsToUpper s)) []

/-- Go `IEXMsgTypeNamespace.SubscribeTo` (fresh TOPS namespace path and
write path made explicit): rejects an empty symbol list; emits a Connect
packet when the subscription table was empty; allocates id nextId+1;
stores the upper-cased symbol set and bumps the shared refcount of each
upper-cased symbol; and sends the subscribe event built by the factory
from the caller's symbols exactly as passed (the `strings.ToUpper` inside
the loop rebinds only the loop variable, never the slice handed to the
factory).  Returns the new state, the new id, and the frames written in
order. -/
def SubscribeTo (factory : String → List String → IEXMsg) (path : String)
    (st : NsState) (symbols : List String) :
    Except String (NsState × Nat × List String) :=
  if symbols.length = 0 then
    .error "Cannot call SubscribeTo with no symbols"
  else
    let connectFrames :=
      if st.subscriptions.length = 0 then [EncodePacket path Message Connect] else []
    let newId := st.nextId + 1
    let entry := upperKeySet symbols
    let counts := symbols.foldl
      (fun c s => CountingSubscriber.Subscribe c (stringsToUpper s)) st.symbols
    let subFrame := EncodeMessage path Message Event (factory Subscribe symbols)
    .ok ({ symbols := counts, nextId := newId,
           subscriptions := st.subscriptions ++ [(newId, entry)] },
         newId, connectFrames ++ [subFrame])

/-- State shared by a namespace and its owning Client: the Client's own
CountingSubscriber of open namespace paths, and the namespace state. -/
structure ClientNsState where
  client : CountingSubscriber
  namespaceState : NsState

/-- Go `Client.closeNamespace` (src/socketio/client.go): decrement the
path's refcount and, when no longer subscribed, write the Socket.IO
Disconnect packet for the namespace path (clearing the cached namespace
pointer has no further observable effect here). -/
def closeNamespace (c : CountingSubscriber) (path : String) :
    CountingSubscriber × List String :=
  let c1 := CountingSubscriber.Unsubscribe c path
  if CountingSubscriber.Subscribed c1 path then (c1, [])
  else (c1, [EncodePacket path Message Disconnect])

/-- The loop body of `getCloseSubscriptionFunc`: unsubscribe one symbol
from the shared counter, collecting it when its count reached zero. -/
def unsubStep (p : CountingSubscriber × List String) (key : String) :
    CountingSubscriber × List String :=
  let c1 := CountingSubscriber.Unsubscribe p.1 key
  if CountingSubscriber.Subscribed c1 key then (c1, p.2) else (c1, p.2 ++ [key])

/-- Go `IEXMsgTypeNamespace.getCloseSubscriptionFunc` (the closure it
returns, composed with the Client's closeNamespace as its closeFunc):
unsubscribe the subscription's symbols collecting those no longer
subscribed, delete the subscription, send one unsubscribe event when the
collected list is non-empty, and call closeNamespace when no
subscriptions remain.  Returns the new state, the collected unsubscribe
list, and the frames written in order; `none` models the nil-pointer
dereference on an unknown id. -/
def closeSubscription (factory : String → List String → IEXMsg) (path : String)
    (st : ClientNsState) (id : Nat) :
    Option (ClientNsState × List String × List String) :=
  match st.namespaceState.subscriptions.lookup id with
  | none => none
  | some symList =>
    let folded := symList.foldl unsubStep (st.namespaceState.symbols, [])
    let unsub := folded.2
    let subs := st.namespaceState.subscriptions.filter (fun q => q.1 != id)
    let unsubFrames :=
      if 0 < unsub.length then
        [EncodeMessage path Message Event (factory Unsubscribe unsub)]
      else []
    let closed :=
      if subs.length = 0 then closeNamespace st.client path else (st.client, [])
    some (⟨closed.1, ⟨folded.1, st.namespaceState.nextId, subs⟩⟩, unsub,
      unsubFrames ++ closed.2)

/-- Go `IEXMsgTypeNamespace.fanout` (src/unnamed/part_005), parameterized
by the outcomes of its two `ParseToJSON` calls on the packet payload (the
symbol-only parse and the full typed parse).  A parse failure is logged
and execution continues: the symbol keeps the zero value of the anonymous
struct (the empty string) when the first parse fails, and the decoded
message keeps its zero value when the second fails.  The result is the
list of (subscription id, delivered message) pairs, one per subscription
whose symbol set contains the extracted symbol. -/
def fanout {μ : Type} (symRes : Except String String) (msgRes : Except String μ)
    (zero : μ) (subs : List (Nat × List String)) : List (Nat × μ) :=
  let symbol := match symRes with | .ok s => s | .error _ => ""
  let decoded := match msgRes with | .ok m => m | .error _ => zero
  (subs.filter (fun q => q.2.contains symbol)).map (fun q => (q.1, decoded))

/-- Go `transport.Write` (src/socketio/transport.go, the callback-based
transport): on a closed transport return (0, error); otherwise call the
websocket `WriteMessage` (modelled by the function giving the optional
error of the underlying write), log any failure, and return
(len(message), nil) unconditionally.  The second component of the result
is the glog error output of the call. -/
def transportWrite (closed : Bool) (connWrite : List Nat → Option String)
    (message : List Nat) : (Except String Nat) × List String :=
  if closed then (.error "Cannot write to a closed transport", [])
  else
    match connWrite message with
    | some e => (.ok message.length, ["Failed to write message: " ++ e])
    | none => (.ok message.length, [])

/-- Folding Subscribe over upper-cased symbols adds to each counter the
multiplicity of its upper-cased occurrences. -/
theorem foldl_subscribe_count (c : CountingSubscriber) (l : List String) (t : String) :
    (l.foldl (fun c2 s => CountingSubscriber.Subscribe c2 (stringsToUpper s)) c) t
      = c t + (l.map stringsToUpper).count t := by
  induction l generalizing c with
  | nil => simp [numSub, List.count_nil]
  | cons a rest ih =>
    simp only [List.foldl_cons, List.map_cons, List.count_cons]
    rw [ih]
    by_cases h : t = (stringsToUpper a)
    · simp [CountingSubscriber.Subscribe, h]
      omega
    · simp [CountingSubscriber.Subscribe, h]
      exact fun hh => h hh.symm

/-- Every key in the accumulated key set of `upperKeySet` comes from the
accumulator or is the upper-cased form of an input symbol. -/
theorem mem_foldl_insertKey (l : List String) :
    ∀ (acc : List String) (u : String),
      u ∈ l.foldl (fun a s => insertKey a (stringsToUpper s)) acc →
      u ∈ acc ∨ ∃ x, x ∈ l ∧ u = stringsToUpper x := by
  induction l with
  | nil =>
    intro acc u hu
    exact Or.inl hu
  | cons a rest ih =>
    intro acc u hu
    simp only [List.foldl_cons] at hu
    rcases ih (insertKey acc (stringsToUpper a)) u hu with h | h
    · unfold insertKey at h
      by_cases hmem : (stringsToUpper a) ∈ acc
      · rw [if_pos hmem] at h
        exact Or.inl h
      · rw [if_neg hmem] at h
        rcases List.mem_append.mp h with h2 | h2
        · exact Or.inl h2
        · exact Or.inr ⟨a, by simp, by simpa using h2⟩
    · obtain ⟨x, hx1, hx2⟩ := h
      exact Or.inr ⟨x, by simp [hx1], hx2⟩

/-- Every symbol collected by the unsubscribe loop of the closer comes
from the accumulator or from the subscription's symbol set. -/
theorem mem_foldl_unsubStep (l : List String) :
    ∀ (c : CountingSubscriber) (acc : List String) (u : String),
      u ∈ (l.foldl unsubStep (c, acc)).2 → u ∈ acc ∨ u ∈ l := by
  induction l with
  | nil =>
    intro c acc u h
    exact Or.inl h
  | cons a rest ih =>
    intro c acc u h
    simp only [List.foldl_cons] at h
    cases hs : CountingSubscriber.Subscribed (CountingSubscriber.Unsubscribe c a) a with
    | true =>
      have h2 : (rest.foldl unsubStep (CountingSubscriber.Unsubscribe c a, acc)).2 =
          (List.foldl unsubStep (unsubStep (c, acc) a) rest).2 := by
        simp [unsubStep, hs]
      rw [← h2] at h
      rcases ih _ _ u h with h3 | h3
      · exact Or.inl h3
      · exact Or.inr (by simp [h3])
    | false =>
      have h2 : (rest.foldl unsubStep (CountingSubscriber.Unsubscribe c a, acc ++ [a])).2 =
          (List.foldl unsubStep (unsubStep (c, acc) a) rest).2 := by
        simp [unsubStep, hs]
      rw [← h2] at h
      rcases ih _ _ u h with h3 | h3
      · rcases List.mem_append.mp h3 with h4 | h4
        · exact Or.inl h4
        · exact Or.inr (by simpa using Or.inl (by simpa using h4))
      · exact Or.inr (by simp [h3])

end socketio

/-- The C5 scenario from the spec: two SubscribeTo(handler, fb) calls on
a fresh TOPS namespace (simple factory; the owning Client's namespace
refcount table empty), then the two closers in order.  The result pairs
the frames emitted by the first closer with those emitted by the second. -/
def refcountScenario : Option (List String × List String) :=
  match socketio.SubscribeTo socketio.simpleSubUnsubFactory socketio.topsPath
      ⟨socketio.CountingSubscriber.empty, 0, []⟩ ["fb"] with
  | .error _ => none
  | .ok (st1, id1, _) =>
    match socketio.SubscribeTo socketio.simpleSubUnsubFactory socketio.topsPath st1 ["fb"] with
    | .error _ => none
    | .ok (st2, id2, _) =>
      match socketio.closeSubscription socketio.simpleSubUnsubFactory socketio.topsPath
          ⟨socketio.CountingSubscriber.empty, st2⟩ id1 with
      | none => none
      | some (st3, _, framesA) =>
        match socketio.closeSubscription socketio.simpleSubUnsubFactory
            socketio.topsPath st3 id2 with
        | none => none
        | some (_, _, framesB) => some (framesA, framesB)

/-- C5: with two SubscribeTo(handler, fb) calls on the TOPS namespace,
invoking the first closer emits no frame (the symbol's refcount is still
positive), and invoking the second closer emits the unsubscribe event
frame for the upper-cased symbol followed by the namespace disconnect
frame, because the subscription table became empty. -/
theorem subscription_refcount_frames_c5 :
    refcountScenario =
      some ([], ["42/1.0/tops,[\"unsubscribe\",\"FB\"]", "41/1.0/tops,"]) := by decide

/-- C7 counterexample: a packet whose symbol-only parse succeeds with FB
while the full typed decode fails is not dropped by fanout: with a single
subscription on FB, that subscription's handler is invoked (with the
zero-value message), so a handler is invoked for a packet whose payload
failed JSON parsing. -/
theorem fanout_drop_on_parse_failure_c7_counterexample :
    socketio.fanout (Except.ok "FB") (Except.error "invalid payload") (0 : Nat)
        [(1, ["FB"])] = [(1, 0)] ∧
    socketio.fanout (Except.ok "FB") (Except.error "invalid payload") (0 : Nat)
        [(1, ["FB"])] ≠ [] :=
  ⟨rfl, by decide⟩

/-- C7 (amended): a parse failure in the fan-out path is logged but the
packet is not dropped: for all parse outcomes, the handlers invoked are
exactly those of subscriptions whose symbol set contains the extracted
symbol — the empty string when symbol extraction failed — and each
receives the decoded message, which is the zero value when the typed
decode failed.  In particular a typed-decode failure alone does not
prevent handler invocations. -/
theorem fanout_on_parse_failure_c7 {μ : Type} (symRes : Except String String)
    (msgRes : Except String μ) (zero : μ) (subs : List (Nat × List String))
    (id : Nat) (m : μ) :
    (id, m) ∈ socketio.fanout symRes msgRes zero subs ↔
      (∃ entry, (id, entry) ∈ subs ∧
        entry.contains (match symRes with | .ok s => s | .error _ => "") = true) ∧
      m = (match msgRes with | .ok mm => mm | .error _ => zero) := by
  unfold socketio.fanout
  constructor
  · intro h
    obtain ⟨q, hq, hfq⟩ := List.mem_map.mp h
    obtain ⟨hqsubs, hpq⟩ := List.mem_filter.mp hq
    obtain ⟨h1, h2⟩ := Prod.mk.injEq .. ▸ hfq
    subst h1
    exact ⟨⟨q.2, by simpa using hqsubs, hpq⟩, h2.symm⟩
  · rintro ⟨⟨entry, hmem, hcont⟩, rfl⟩
    exact List.mem_map.mpr ⟨(id, entry), List.mem_filter.mpr ⟨hmem, hcont⟩, rfl⟩

theorem fanout_on_parse_failure_c7_witness :
    ((2, 7) ∈ socketio.fanout (Except.ok "FB") (Except.error "invalid payload")
        (7 : Nat) [(2, ["FB"])] ↔
      (∃ entry, (2, entry) ∈ [(2, ["FB"])] ∧
        entry.contains
          (match (Except.ok "FB" : Except String String) with
            | .ok s => s | .error _ => "") = true) ∧
      (7 : Nat) = (match (Except.error "invalid payload" : Except String Nat) with
        | .ok mm => mm | .error _ => 7)) :=
  fanout_on_parse_failure_c7 (Except.ok "FB") (Except.error "invalid payload")
    7 [(2, ["FB"])] 2 7

/-- C9: SubscribeTo sends the subscribe event built from the caller's
symbols exactly as passed (not upper-cased), while the subscription's
stored filter set records the upper-cased forms and the shared refcount
table counts the upper-cased forms; and any unsubscribe event later
emitted by a closer carries only symbols from the stored (upper-cased)
set. -/
theorem subscribeTo_preserves_case_c9 (st : socketio.NsState) (symbols : List String)
    (hne : ¬ symbols.length = 0) :
    (∃ st2 pre,
      socketio.SubscribeTo socketio.simpleSubUnsubFactory socketio.topsPath st symbols =
        Except.ok (st2, st.nextId + 1,
          pre ++ [socketio.EncodeMessage socketio.topsPath socketio.Message socketio.Event
            (socketio.simpleSubUnsubFactory socketio.Subscribe symbols)]) ∧
      st2.subscriptions =
        st.subscriptions ++ [(st.nextId + 1, socketio.upperKeySet symbols)] ∧
      (∀ t, st2.symbols t = st.symbols t + (symbols.map socketio.stringsToUpper).count t)) ∧
    (∀ u, u ∈ socketio.upperKeySet symbols → ∃ x, x ∈ symbols ∧ u = socketio.stringsToUpper x) ∧
    (∀ (cst : socketio.ClientNsState) (id : Nat) (entry : List String)
        (st3 : socketio.ClientNsState) (unsub frames : List String),
      cst.namespaceState.subscriptions.lookup id = some entry →
      socketio.closeSubscription socketio.simpleSubUnsubFactory socketio.topsPath cst id =
        some (st3, unsub, frames) →
      (∀ u, u ∈ unsub → u ∈ entry) ∧
      (0 < unsub.length → frames.head? =
        some (socketio.EncodeMessage socketio.topsPath socketio.Message socketio.Event
          (socketio.simpleSubUnsubFactory socketio.Unsubscribe unsub)))) := by
  refine ⟨?_, ?_, ?_⟩
  · refine ⟨⟨symbols.foldl (fun c s => socketio.CountingSubscriber.Subscribe c (socketio.stringsToUpper s))
        st.symbols, st.nextId + 1,
        st.subscriptions ++ [(st.nextId + 1, socketio.upperKeySet symbols)]⟩,
      (if st.subscriptions.length = 0 then
        [socketio.EncodePacket socketio.topsPath socketio.Message socketio.Connect]
      else []), ?_, rfl, fun t => socketio.foldl_subscribe_count st.symbols symbols t⟩
    unfold socketio.SubscribeTo
    rw [if_neg hne]
  · intro u hu
    rcases socketio.mem_foldl_insertKey symbols [] u hu with h | h
    · cases h
    · exact h
  · intro cst id entry st3 unsub frames hl hc
    unfold socketio.closeSubscription at hc
    rw [hl] at hc
    injection hc with hc1
    cases hc1
    constructor
    · intro u hu
      rcases socketio.mem_foldl_unsubStep entry cst.namespaceState.symbols [] u hu with h | h
      · cases h
      · exact h
    · intro hpos
      rw [if_pos hpos]
      rfl

theorem subscribeTo_preserves_case_c9_witness :
    (∃ st2 pre,
      socketio.SubscribeTo socketio.simpleSubUnsubFactory socketio.topsPath
          ⟨socketio.CountingSubscriber.empty, 0, []⟩ ["fb"] =
        Except.ok (st2, 0 + 1,
          pre ++ [socketio.EncodeMessage socketio.topsPath socketio.Message socketio.Event
            (socketio.simpleSubUnsubFactory socketio.Subscribe ["fb"])]) ∧
      st2.subscriptions = [] ++ [(0 + 1, socketio.upperKeySet ["fb"])] ∧
      (∀ t, st2.symbols t = socketio.CountingSubscriber.empty t +
        ((["fb"].map socketio.stringsToUpper)).count t)) ∧
    (∀ u, u ∈ socketio.upperKeySet ["fb"] → ∃ x, x ∈ ["fb"] ∧ u = socketio.stringsToUpper x) ∧
    (∀ (cst : socketio.ClientNsState) (id : Nat) (entry : List String)
        (st3 : socketio.ClientNsState) (unsub frames : List String),
      cst.namespaceState.subscriptions.lookup id = some entry →
      socketio.closeSubscription socketio.simpleSubUnsubFactory socketio.topsPath cst id =
        some (st3, unsub, frames) →
      (∀ u, u ∈ unsub → u ∈ entry) ∧
      (0 < unsub.length → frames.head? =
        some (socketio.EncodeMessage socketio.topsPath socketio.Message socketio.Event
          (socketio.simpleSubUnsubFactory socketio.Unsubscribe unsub)))) :=
  subscribeTo_preserves_case_c9 ⟨socketio.CountingSubscriber.empty, 0, []⟩ ["fb"]
    (by decide)

/-- C10: on a transport that is not closed, Write returns
(len(message), nil) regardless of the outcome of the underlying websocket
WriteMessage call — a failing underlying write is only logged — while on
a closed transport Write returns an error. -/
theorem transport_write_ignores_conn_error_c10
    (connWrite : List Nat → Option String) (message : List Nat) :
    (socketio.transportWrite false connWrite message).1 = Except.ok message.length ∧
    (∀ e, connWrite message = some e →
      (socketio.transportWrite false connWrite message).2 =
        ["Failed to write message: " ++ e]) ∧
    (socketio.transportWrite true connWrite message).1 =
      Except.error "Cannot write to a closed transport" := by
  refine ⟨?_, ?_, rfl⟩
  · cases h : connWrite message <;> simp [socketio.transportWrite, h]
  · intro e he
    simp [socketio.transportWrite, he]

theorem transport_write_ignores_conn_error_c10_witness :
    (socketio.transportWrite false (fun _ => some "websocket gone") [7, 8, 9]).1 =
      Except.ok ([7, 8, 9] : List Nat).length ∧
    (∀ e, (fun _ => some "websocket gone") ([7, 8, 9] : List Nat) = some e →
      (socketio.transportWrite false (fun _ => some "websocket gone") [7, 8, 9]).2 =
        ["Failed to write message: " ++ e]) ∧
    (socketio.transportWrite true (fun _ => some "websocket gone") [7, 8, 9]).1 =
      Except.error "Cannot write to a closed transport" :=
  transport_write_ignores_conn_error_c10 (fun _ => some "websocket gone") [7, 8, 9]

end GoIex
